import Mathlib

/-!
Verification of the loss-assembly core of the attend-infer-repeat model.

The development shallowly embeds `attend_infer_repeat/model.py` (class
`AIRModel`: `_build` post-processing, `_anneal_weight`, `_prior_loss`,
`_reinforce`, `_make_baseline_train_step`, `train_step`) and
`attend_infer_repeat/ops.py` (class `Loss`).

Tensors are embedded as nested lists of rationals; a TensorFlow graph-time
failure (Python exception at graph construction) is an `Except Err` error
value.  External collaborator modules and library functions whose source is
outside the embedded files (the `prior.py` distributions, the Gaussian pdf,
`tf.pow`/`tf.sqrt`, KL of Normals, `ops.make_moving_average` state) are kept
abstract as fields of a `RealOps` parameter record or as explicit state
inputs; all wiring implemented in the embedded files is concrete.
-/

set_option linter.unusedVariables false

deriving instance DecidableEq for Except

/-- Graph-construction-time failure kinds.  `typeError` stands for a Python
`TypeError`/`AttributeError` raised by dereferencing `None`; `shapeMismatch`
for the failed shape assertion in `Loss._update`; `notImplemented` for the
`NotImplementedError` raised by `AIRModel._anneal_weight` on an unsupported
anneal kind (the spec calls this error kind UnsupportedScheduleKind). -/
inductive Err where
  | typeError
  | shapeMismatch
  | notImplemented
deriving DecidableEq, Repr

/-- A trainable TensorFlow variable: its name, tensor rank (`len(get_shape())`)
and the current value of `tf.nn.l2_loss(w)` for it. -/
structure TFVar where
  name : String
  ndim : ℕ
  l2 : ℚ
deriving DecidableEq, Repr

/-- Sum of a list of rationals. -/
def sumQ (xs : List ℚ) : ℚ := xs.sum

/-- `tf.reduce_mean` over one axis: sum divided by length. -/
def meanQ (xs : List ℚ) : ℚ := xs.sum / (xs.length : ℚ)

/-- Elementwise sum of two vectors (`tf` elementwise `+` on equal shapes). -/
def addVecs (a b : List ℚ) : List ℚ := List.zipWith (fun x y => x + y) a b

/-- Sum of a list of equal-length vectors (`tf.reduce_sum` over axis 0). -/
def sumVecs : List (List ℚ) → List ℚ
  | [] => []
  | [v] => v
  | v :: vs => addVecs v (sumVecs vs)

/-- `tf.transpose` with perm `(1, 0)` on a rectangular matrix. -/
def transposeLL (m : List (List ℚ)) : List (List ℚ) :=
  (List.range (m.headD []).length).map (fun j => m.map (fun row => row.getD j 0))

/-- `tf.cumsum(x, axis=0, reverse=True)`: entry `t` is the sum of rows
`t, t+1, ...` of the input. -/
def revCumsum (rows : List (List ℚ)) : List (List ℚ) :=
  (List.range rows.length).map (fun t => sumVecs (rows.drop t))

/-- Elementwise combination of two rank-3 tensors of equal shape. -/
def zipPix (f : ℚ → ℚ → ℚ) (a b : List (List (List ℚ))) : List (List (List ℚ)) :=
  List.zipWith (List.zipWith (List.zipWith f)) a b

/-- Elementwise product of two matrices of equal shape. -/
def mulMat (a b : List (List ℚ)) : List (List ℚ) :=
  List.zipWith (List.zipWith (fun x y => x * y)) a b

/-- Elementwise sum of two rank-3 tensors of equal shape. -/
def addT3 (a b : List (List (List ℚ))) : List (List (List ℚ)) :=
  zipPix (fun x y => x + y) a b

/-- Multiply every entry of a rank-3 tensor by a scalar (`tensor * c`). -/
def scale3 (c : ℚ) (t : List (List (List ℚ))) : List (List (List ℚ)) :=
  t.map (fun img => img.map (fun row => row.map (fun x => x * c)))

/-- The weighted-sum loss accumulator of `ops.py` (`class Loss`): the pair of
the scalar aggregate `self._value` and the per-sample vector aggregate
`self._per_sample`, both `None` until the first `add`. -/
structure Loss where
  valAcc : Option ℚ
  psAcc : Option (List ℚ)
deriving DecidableEq, Repr

/-- `Loss.__init__`: both aggregates start as `None`. -/
def lossInit : Loss := { valAcc := none, psAcc := none }

/-- `Loss._update` for the scalar aggregate: `expr *= weight`, then either
store it (aggregate was `None`) or add it.  A `None` expression fails like the
Python `None * weight`. -/
def updateScalar (value : Option ℚ) (expr : Option ℚ) (weight : ℚ) : Except Err (Option ℚ) :=
  match expr with
  | none => .error .typeError
  | some e =>
    let e2 := e * weight
    match value with
    | none => .ok (some e2)
    | some v => .ok (some (v + e2))

/-- `Loss._update` for the per-sample aggregate: `expr *= weight`, then either
store it or, after the `assert value.get_shape() == expr.get_shape()` shape
check (vector shape = length), add it elementwise. -/
def updateVec (value : Option (List ℚ)) (expr : Option (List ℚ)) (weight : ℚ) :
    Except Err (Option (List ℚ)) :=
  match expr with
  | none => .error .typeError
  | some e =>
    let e2 := e.map (fun x => x * weight)
    match value with
    | none => .ok (some e2)
    | some v =>
      if v.length = e2.length then .ok (some (List.zipWith (fun x y => x + y) v e2))
      else .error .shapeMismatch

/-- `Loss.add` with a scalar `loss` and vector `per_sample` argument. -/
def Loss.add (l : Loss) (loss : Option ℚ) (per_sample : Option (List ℚ)) (weight : ℚ) :
    Except Err Loss :=
  match updateScalar l.valAcc loss weight with
  | .error e => .error e
  | .ok v =>
    match updateVec l.psAcc per_sample weight with
    | .error e => .error e
    | .ok p => .ok { valAcc := v, psAcc := p }

/-- `Loss.add` called with another `Loss` instance: the addend's stored
`_value` and `_per_sample` are extracted and added. -/
def Loss.addLoss (l other : Loss) (weight : ℚ) : Except Err Loss :=
  Loss.add l other.valAcc other.psAcc weight

/-- `Loss._get_value`: it takes the aggregate's `name` but ignores it and
always reads `self._value` (falling back to a scalar zero), exactly as the
source does. -/
def Loss.get_value (l : Loss) (nm : String) : ℚ :=
  match l.valAcc with
  | none => 0
  | some v => v

/-- The `Loss.value` property: `self._get_value('_value')`. -/
def Loss.value (l : Loss) : ℚ := l.get_value "_value"

/-- The `Loss.per_sample` property: `self._get_value('_per_sample')`.  Because
`_get_value` ignores its argument, this returns the scalar `_value`
aggregate. -/
def Loss.per_sample (l : Loss) : ℚ := l.get_value "_per_sample"

/-- External collaborator functions whose implementation lives outside the
embedded source files and is treated as an opaque parameter:
`pow` is `tf.pow`; `sqrt` is `tf.sqrt`; `normal_log_pdf mean std x` is
`Normal(mean, std).log_prob(x)`; `kl_normal ploc pscale qloc qscale` is the
elementwise `kl(Normal(ploc, pscale), Normal(qloc, qscale))`;
`geometric_prior`, `num_steps_prob` and `num_steps_log_prob` are
`prior.geometric_prior`, `NumStepsDistribution.prob()` and
`NumStepsDistribution.log_prob(...)` from the (external) `prior.py`, with the
distribution identified by the `[batch, steps]` matrix of per-step
continuation probabilities it was constructed from; `tabular_kl` is
`prior.tabular_kl`. -/
structure RealOps where
  pow : ℚ → ℚ → ℚ
  sqrt : ℚ → ℚ
  normal_log_pdf : ℚ → ℚ → ℚ → ℚ
  kl_normal : ℚ → ℚ → ℚ → ℚ → ℚ
  geometric_prior : ℚ → ℕ → List ℚ
  num_steps_prob : List (List ℚ) → List (List ℚ)
  num_steps_log_prob : List (List ℚ) → List ℚ → List ℚ
  tabular_kl : List (List ℚ) → List ℚ → List (List ℚ)

/-- A `loc`/`scale` Normal-prior record (the `what_prior` and
`where_scale_prior` arguments of `train_step`). -/
structure NormalPrior where
  loc : ℚ
  scale : ℚ
deriving DecidableEq, Repr

/-- The `where_shift_prior` record; `loc = none` models the `'loc' in
where_shift_prior` test failing, in which case the prior mean defaults to the
posterior mean. -/
structure ShiftPrior where
  loc : Option ℚ
  scale : ℚ
deriving DecidableEq, Repr

/-- The `num_steps_prior` record as passed into `train_step` (an `AttrDict`):
`analytic = none` models a record without the `analytic` key.  `steps_div`,
`hold_init` and `weight` hold the values read by `getattr(..., default)`
(defaults `1.`, `0.`, `1.` respectively). -/
structure NumStepsPriorIn where
  anneal : Option String
  init : ℚ
  final : ℚ
  steps : ℚ
  steps_div : ℚ
  hold_init : ℚ
  weight : ℚ
  analytic : Option Bool
deriving DecidableEq, Repr

/-- The `num_steps_prior` record after line 295 of `train_step`
(`num_steps_prior['analytic'] = getattr(num_steps_prior, 'analytic', True)`)
has forced the `analytic` field to exist. -/
structure NumStepsPrior where
  anneal : Option String
  init : ℚ
  final : ℚ
  steps : ℚ
  steps_div : ℚ
  hold_init : ℚ
  weight : ℚ
  analytic : Bool
deriving DecidableEq, Repr

/-- Line 295 of `model.py`: fill in the `analytic` field, defaulting to
`True`. -/
def normalizeNSP (p : NumStepsPriorIn) : NumStepsPrior :=
  { anneal := p.anneal, init := p.init, final := p.final, steps := p.steps,
    steps_div := p.steps_div, hold_init := p.hold_init, weight := p.weight,
    analytic := p.analytic.getD true }

/-- The state of an `AIRModel` after `_build` has unrolled the cell: the raw
per-step cell outputs (external collaborators produce their values) together
with the static configuration.  `raw_canvas` is the `[max_steps, batch, H, W]`
canvas stack before the output multiplier is applied; `presence` and
`presence_prob` are the squeezed `[max_steps, batch]` outputs; `what_loc`,
`what_scale` are `[max_steps, batch, n_appearance]`; `where_loc`,
`where_scale` are `[max_steps, batch, 4]`.  `trainable_variables` is the
`tf.trainable_variables()` collection and `baseline_vars` the trainable
variables scoped under the baseline module. -/
structure AIRModel where
  max_steps : ℕ
  batch_size : ℕ
  output_std : ℚ
  output_multiplier : ℚ
  discrete_steps : Bool
  obs : List (List (List ℚ))
  raw_canvas : List (List (List (List ℚ)))
  presence : List (List ℚ)
  presence_prob : List (List ℚ)
  what_loc : List (List (List ℚ))
  what_scale : List (List (List ℚ))
  where_loc : List (List (List ℚ))
  where_scale : List (List (List ℚ))
  trainable_variables : List TFVar
  baseline_vars : List TFVar
deriving DecidableEq, Repr

/-- `self.canvas *= self.output_multiplier` (line 93): every step of the
canvas stack is scaled. -/
def AIRModel.canvas (m : AIRModel) : List (List (List (List ℚ))) :=
  m.raw_canvas.map (fun stepCanvas => scale3 m.output_multiplier stepCanvas)

/-- `self.final_canvas = self.canvas[-1]` (line 95). -/
def AIRModel.final_canvas (m : AIRModel) : List (List (List ℚ)) :=
  m.canvas.getLastD []

/-- The output distribution object `Normal(self.final_canvas, self.output_std)`
(line 97): a per-pixel Normal with tensor-valued mean and scalar std. -/
structure Normal3 where
  loc : List (List (List ℚ))
  scale : ℚ
deriving DecidableEq, Repr

/-- `self.output_distrib = Normal(self.final_canvas, self.output_std)`. -/
def AIRModel.output_distrib (m : AIRModel) : Normal3 :=
  { loc := m.final_canvas, scale := m.output_std }

/-- `Normal(...).log_prob(x)`: the abstract Gaussian log-pdf applied
per pixel. -/
def Normal3.log_prob (R : RealOps) (d : Normal3) (x : List (List (List ℚ))) :
    List (List (List ℚ)) :=
  zipPix (fun mu ob => R.normal_log_pdf mu d.scale ob) d.loc x

/-- `posterior_step_probs = tf.transpose(tf.squeeze(self.presence_prob))`
(line 99), the `[batch, steps]` matrix identifying `num_steps_distrib`. -/
def AIRModel.posterior_step_probs (m : AIRModel) : List (List ℚ) :=
  transposeLL m.presence_prob

/-- `self.num_step_per_sample = tf.squeeze(tf.reduce_sum(self.presence, 0))`
(line 102): per-sample realized number of steps. -/
def AIRModel.num_step_per_sample (m : AIRModel) : List ℚ :=
  (transposeLL m.presence).map List.sum

/-- `AIRModel._anneal_weight` (lines 106-124).  The `exp` branch is
`tf.train.exponential_decay(val, step, steps_div, decay_rate)` with
`decay_rate = (final/val) ** (steps_div/anneal_steps)`, i.e.
`val * decay_rate ** (step/steps_div)`; the `linear` branch interpolates; any
other kind raises `NotImplementedError`; the result is clamped below by
`final`. -/
def anneal_weight (R : RealOps) (init_val final_val : ℚ) (anneal_type : String)
    (global_step anneal_steps hold_for steps_div : ℚ) : Except Err ℚ :=
  let step := max (global_step - hold_for) 0
  if anneal_type = "exp" then
    let decay_rate := R.pow (final_val / init_val) (steps_div / anneal_steps)
    Except.ok (max final_val (init_val * R.pow decay_rate (step / steps_div)))
  else if anneal_type = "linear" then
    Except.ok (max final_val (final_val + (init_val - final_val) * (1 - step / anneal_steps)))
  else Except.error Err.notImplemented

/-- Lines 158-161 of `_prior_loss` (`analytic` branch of the prior step
weight): drop bin 0 of the posterior count probabilities, transpose to
`[steps, batch]`, and take the reverse cumulative sum over the step axis. -/
def stepWeightAnalytic (num_steps_posterior_prob : List (List ℚ)) : List (List ℚ) :=
  revCumsum (transposeLL (num_steps_posterior_prob.map (List.drop 1)))

/-- Lines 174-186 of `_prior_loss`: the `what` (appearance) KL block.  The KL
of the posterior `Normal(what_loc, what_scale)` against the scalar prior is
summed over the latent axis, weighted per step by `prior_step_weight`, summed
over steps, and accumulated with `conditional_kl_weight = 1`. -/
def whatStage (R : RealOps) (m : AIRModel) (what_prior : Option NormalPrior)
    (step_weight : List (List ℚ)) (pl : Loss) : Except Err Loss :=
  match what_prior with
  | none => .ok pl
  | some wp =>
    let what_kl0 := zipPix (fun l s => R.kl_normal l s wp.loc wp.scale) m.what_loc m.what_scale
    let what_kl := mulMat (what_kl0.map (fun st => st.map List.sum)) step_weight
    let what_kl_per_sample := sumVecs what_kl
    Loss.add pl (some (meanQ what_kl_per_sample)) (some what_kl_per_sample) 1

/-- Lines 188-214 of `_prior_loss`: the `where` (pose) KL block.  The 4-vector
pose parameters are split into the scale pair (components 0 and 2) and the
shift pair (components 1 and 3); each pair gets its own KL, the shift prior's
mean defaulting to the posterior mean when the record has no `loc`; the sum is
weighted by `prior_step_weight`, summed over steps, and accumulated. -/
def whereStage (R : RealOps) (m : AIRModel) (where_scale_prior : Option NormalPrior)
    (where_shift_prior : Option ShiftPrior) (step_weight : List (List ℚ)) (pl : Loss) :
    Except Err Loss :=
  match where_scale_prior, where_shift_prior with
  | some sp, some shp =>
    let us := m.where_loc.map (fun st => st.map (fun v => [v.getD 0 0, v.getD 2 0]))
    let ss := m.where_scale.map (fun st => st.map (fun v => [v.getD 0 0, v.getD 2 0]))
    let ut := m.where_loc.map (fun st => st.map (fun v => [v.getD 1 0, v.getD 3 0]))
    let st := m.where_scale.map (fun st2 => st2.map (fun v => [v.getD 1 0, v.getD 3 0]))
    let scale_kl := zipPix (fun l s2 => R.kl_normal l s2 sp.loc sp.scale) us ss
    let shift_kl :=
      match shp.loc with
      | some sl => zipPix (fun l s2 => R.kl_normal l s2 sl shp.scale) ut st
      | none => zipPix (fun l s2 => R.kl_normal l s2 l shp.scale) ut st
    let where_kl := mulMat ((addT3 scale_kl shift_kl).map (fun st2 => st2.map List.sum)) step_weight
    let where_kl_per_sample := sumVecs where_kl
    Loss.add pl (some (meanQ where_kl_per_sample)) (some where_kl_per_sample) 1
  | _, _ => .ok pl

/-- `AIRModel._prior_loss` (lines 126-216).  When the step-count prior record
is present, its (possibly annealed) success probability builds the geometric
prior, the tabular KL against the posterior count distribution is accumulated
with the record's weight, and the per-step prior weight is the analytic
reverse-cumsum tail or the realized presence bits (line 157 dereferences the
record unconditionally, so a missing record fails).  Returns the accumulated
KL loss together with `self.prior_step_weight`. -/
def prior_loss_fn (R : RealOps) (m : AIRModel) (what_prior where_scale_prior : Option NormalPrior)
    (where_shift_prior : Option ShiftPrior) (num_steps_prior : Option NumStepsPrior)
    (global_step : ℚ) : Except Err (Loss × List (List ℚ)) :=
  match num_steps_prior with
  | none => .error .typeError
  | some nsp =>
    match
      (match nsp.anneal with
       | some kind =>
         anneal_weight R nsp.init nsp.final kind global_step nsp.steps nsp.hold_init nsp.steps_div
       | none => .ok nsp.init) with
    | .error e => .error e
    | .ok steps_prior_success_prob =>
      let prior := R.geometric_prior steps_prior_success_prob m.max_steps
      let num_steps_posterior_prob := R.num_steps_prob m.posterior_step_probs
      let steps_kl := R.tabular_kl num_steps_posterior_prob prior
      let kl_num_steps_per_sample := steps_kl.map List.sum
      let kl_num_steps := meanQ kl_num_steps_per_sample
      match Loss.add lossInit (some kl_num_steps) (some kl_num_steps_per_sample) nsp.weight with
      | .error e => .error e
      | .ok pl0 =>
        let step_weight :=
          if nsp.analytic then stepWeightAnalytic num_steps_posterior_prob else m.presence
        match whatStage R m what_prior step_weight pl0 with
        | .error e => .error e
        | .ok pl1 =>
          match whereStage R m where_scale_prior where_shift_prior step_weight pl1 with
          | .error e => .error e
          | .ok pl2 => .ok (pl2, step_weight)

/-- `tf.stop_gradient`: the identity on values; in the graph it blocks
gradient flow through its argument. -/
def stop_gradient (x : ℚ) : ℚ := x

/-- The tensors produced by `AIRModel._reinforce`. -/
structure ReinforceOut where
  log_prob : List ℚ
  importance_weight : List ℚ
  reinforce_loss_per_sample : List ℚ
  reinforce_loss : ℚ
deriving DecidableEq, Repr

/-- `AIRModel._reinforce` (lines 218-252).  `baseline` is the baseline
module's per-sample prediction (or `none`); when a decay rate is given the
importance weight is normalized using the current values `moving_mean` /
`moving_var` of the exponential-moving-average state created by
`ops.make_moving_average` (initialized at `0.` and `1.`), with the variance
floored at `1` through `factor = max(sqrt(moving_var), 1)`.  The per-sample
REINFORCE loss is `stop_gradient(importance_weight) * log_prob` and the
returned loss is its batch mean. -/
def reinforce_fn (R : RealOps) (m : AIRModel) (importance_weight0 : List ℚ)
    (baseline : Option (List ℚ)) (decay_rate : Option ℚ) (moving_mean moving_var : ℚ) :
    ReinforceOut :=
  let log_prob := R.num_steps_log_prob m.posterior_step_probs m.num_step_per_sample
  let iw1 :=
    match baseline with
    | some b => List.zipWith (fun x y => x - y) importance_weight0 b
    | none => importance_weight0
  let iw2 :=
    match decay_rate with
    | some _ => iw1.map (fun x => (x - moving_mean) / max (R.sqrt moving_var) 1)
    | none => iw1
  let rps := List.zipWith (fun w l => stop_gradient w * l) iw2 log_prob
  { log_prob := log_prob, importance_weight := iw2,
    reinforce_loss_per_sample := rps, reinforce_loss := meanQ rps }

/-- `AIRModel._make_baseline_train_step` (lines 254-260): the baseline target
is the detached `loss` argument, the baseline loss is half the mean squared
error, and the returned update op minimizes it over `baseline_vars` with the
given optimizer.  An update op is modelled by its learning rate and its
`var_list`. -/
def make_baseline_train_step (opt_lr : ℚ) (loss : List ℚ) (baseline : List ℚ)
    (baseline_vars : List TFVar) : ℚ × (ℚ × List TFVar) :=
  let baseline_target := loss.map stop_gradient
  let baseline_loss :=
    (1 / 2) * meanQ (List.zipWith (fun t b => (t - b) ^ 2) baseline_target baseline)
  (baseline_loss, (opt_lr, baseline_vars))

/-- Semantics of applying one update op `(lr, var_list)` to a variable
assignment: an optimizer writes new values (given by `upd`) to exactly the
variables in its `var_list` and leaves every other variable unchanged. -/
def applyOp (upd : TFVar → ℚ → ℚ) (op : ℚ × List TFVar) (s : TFVar → ℚ) : TFVar → ℚ :=
  fun v => if v ∈ op.2 then upd v (s v) else s v

/-- `rec_loss_per_sample` of `train_step` (lines 321-322): the elementwise
negated output log-likelihood of the observation, summed over both pixel
axes. -/
def rec_loss_per_sample_fn (R : RealOps) (m : AIRModel) : List ℚ :=
  let neg_lp := (Normal3.log_prob R m.output_distrib m.obs).map
    (fun img => img.map (fun row => row.map (fun x => -x)))
  neg_lp.map (fun img => (img.map List.sum).sum)

/-- Lines 327-333 of `train_step` (the prior-loss block): unless `use_prior`
is `None`, build the prior loss and add it to the accumulator with weight
`float(use_prior == True)`.  Returns the updated accumulator together with
the prior loss, prior step weight and prior weight when the block ran. -/
def priorStage (R : RealOps) (m : AIRModel) (what_prior where_scale_prior : Option NormalPrior)
    (where_shift_prior : Option ShiftPrior) (nsp : NumStepsPrior) (global_step : ℚ)
    (use_prior : Option Bool) (loss1 : Loss) :
    Except Err (Loss × Option (Loss × List (List ℚ) × ℚ)) :=
  match use_prior with
  | none => .ok (loss1, none)
  | some upFlag =>
    match prior_loss_fn R m what_prior where_scale_prior where_shift_prior (some nsp)
        global_step with
    | .error e => .error e
    | .ok (pl, sw) =>
      let prior_weight : ℚ := if upFlag then 1 else 0
      match Loss.addLoss loss1 pl prior_weight with
      | .error e => .error e
      | .ok loss2 => .ok (loss2, some (pl, sw, prior_weight))

/-- Lines 335-344 of `train_step` (the REINFORCE block): with `use_reinforce`
the importance weight starts from the per-sample reconstruction loss and,
when the step-count prior is not analytic, adds `self.prior_loss.per_sample`
— the getter that (because `_get_value` ignores its argument) returns the
scalar `_value`, broadcast over the batch; `_reinforce` then produces the
REINFORCE loss, which is added to the optimized objective.  Returns the
pre-baseline importance weight, the `_reinforce` outputs and the updated
optimized objective. -/
def reinforceStage (R : RealOps) (m : AIRModel) (nsp : NumStepsPrior)
    (priorInfo : Option (Loss × List (List ℚ) × ℚ)) (use_reinforce : Bool)
    (baseline : Option (List ℚ)) (decay_rate : Option ℚ) (moving_mean moving_var : ℚ)
    (rec_lps : List ℚ) (opt_loss0 : ℚ) :
    Except Err (Option (List ℚ) × Option ReinforceOut × ℚ) :=
  if use_reinforce then
    match
      (if nsp.analytic then Except.ok rec_lps
       else
         match priorInfo with
         | some (pl, _, _) => Except.ok (rec_lps.map (fun x => x + Loss.per_sample pl))
         | none => Except.error Err.typeError) with
    | .error e => .error e
    | .ok iw0 =>
      let ro := reinforce_fn R m iw0 baseline decay_rate moving_mean moving_var
      .ok (some iw0, some ro, opt_loss0 + ro.reinforce_loss)
  else .ok (none, none, opt_loss0)

/-- Everything `train_step` computes that the verification observes.
`train_op` is the returned grouped train step as a list of update ops
(learning rate, `var_list`): the main op alone, or the main op grouped with
the baseline op. -/
structure TrainStepOut where
  loss : Loss
  opt_loss : ℚ
  rec_loss : ℚ
  rec_loss_per_sample : List ℚ
  prior_loss : Option Loss
  prior_step_weight : Option (List (List ℚ))
  prior_weight : Option ℚ
  reinforce_imp_weight : Option (List ℚ)
  importance_weight : Option (List ℚ)
  log_prob : Option (List ℚ)
  reinforce_loss_per_sample : Option (List ℚ)
  reinforce_loss : Option ℚ
  l2_loss : Option ℚ
  baseline_loss : Option ℚ
  model_vars : List TFVar
  train_op : List (ℚ × List TFVar)
deriving DecidableEq, Repr

/-- `AIRModel.train_step` (lines 262-377).  Line 295 dereferences
`num_steps_prior` unconditionally, so `none` fails immediately.  The loss
accumulator collects the reconstruction loss and, unless `use_prior` is
`none`, the prior loss weighted by `float(use_prior == True)`.  With
`use_reinforce` the importance weight starts from `rec_loss_per_sample`, adds
`self.prior_loss.per_sample` (the buggy scalar getter, broadcast over the
batch) when the prior is not analytic, and the resulting REINFORCE loss is
added to the optimized objective only.  An `l2_weight > 0` adds the L2
penalty over rank-2 model variables (baseline variables excluded).  The main
update op covers `trainable_variables` minus the baseline variables; with
REINFORCE active (`use_reinforce and discrete_steps`) and a baseline module,
the baseline op (at `10 *` the learning rate, over the baseline variables) is
grouped with it.  `moving_mean` / `moving_var` are the current values of the
NVIL moving-average state. -/
def train_step_fn (R : RealOps) (m : AIRModel) (learning_rate l2_weight : ℚ)
    (what_prior where_scale_prior : Option NormalPrior) (where_shift_prior : Option ShiftPrior)
    (num_steps_prior : Option NumStepsPriorIn) (use_prior : Option Bool) (use_reinforce : Bool)
    (baseline : Option (List ℚ)) (decay_rate : Option ℚ)
    (moving_mean moving_var global_step : ℚ) : Except Err TrainStepOut :=
  match num_steps_prior with
  | none => .error .typeError
  | some nspIn =>
    let nsp := normalizeNSP nspIn
    let rec_lps := rec_loss_per_sample_fn R m
    let rec_loss := meanQ rec_lps
    match Loss.add lossInit (some rec_loss) (some rec_lps) 1 with
    | .error e => .error e
    | .ok loss1 =>
      match priorStage R m what_prior where_scale_prior where_shift_prior nsp global_step
          use_prior loss1 with
      | .error e => .error e
      | .ok (loss2, priorInfo) =>
        let opt_loss0 := Loss.value loss2
        match reinforceStage R m nsp priorInfo use_reinforce baseline decay_rate
            moving_mean moving_var rec_lps opt_loss0 with
        | .error e => .error e
        | .ok (iw0opt, roOpt, opt_loss1) =>
          let baseline_vars := if use_reinforce && baseline.isSome then m.baseline_vars else []
          let model_vars := m.trainable_variables.filter (fun v => !(baseline_vars.contains v))
          let l2opt : Option ℚ :=
            if 0 < l2_weight then
              some (l2_weight * ((model_vars.filter (fun v => v.ndim == 2)).map TFVar.l2).sum)
            else none
          let opt_loss2 := opt_loss1 + l2opt.getD 0
          let use_reinforce_eff := use_reinforce && m.discrete_steps
          let mainOp : ℚ × List TFVar := (learning_rate, model_vars)
          let blStep : Option (ℚ × (ℚ × List TFVar)) :=
            if use_reinforce_eff then
              match baseline, iw0opt with
              | some bl, some iw0 =>
                some (make_baseline_train_step (10 * learning_rate) iw0 bl baseline_vars)
              | _, _ => none
            else none
          Except.ok
            { loss := loss2, opt_loss := opt_loss2, rec_loss := rec_loss,
              rec_loss_per_sample := rec_lps,
              prior_loss := priorInfo.map (fun x => x.1),
              prior_step_weight := priorInfo.map (fun x => x.2.1),
              prior_weight := priorInfo.map (fun x => x.2.2),
              reinforce_imp_weight := iw0opt,
              importance_weight := roOpt.map ReinforceOut.importance_weight,
              log_prob := roOpt.map ReinforceOut.log_prob,
              reinforce_loss_per_sample := roOpt.map ReinforceOut.reinforce_loss_per_sample,
              reinforce_loss := roOpt.map ReinforceOut.reinforce_loss,
              l2_loss := l2opt,
              baseline_loss := blStep.map (fun x => x.1),
              model_vars := model_vars,
              train_op :=
                match blStep with
                | some bs => [mainOp, bs.2]
                | none => [mainOp] }

/-- A simple concrete instantiation of the abstract collaborator functions,
used to evaluate the embedded code on concrete inputs. -/
def testOps : RealOps :=
  { pow := fun x y => 1
    sqrt := fun x => x
    normal_log_pdf := fun mu sd x => -((x - mu) ^ 2)
    kl_normal := fun a b c d => (a - c) ^ 2 + (b - d) ^ 2
    geometric_prior := fun p n => List.replicate (n + 1) p
    num_steps_prob := fun p => p
    num_steps_log_prob := fun pr counts => counts.map (fun c => c + 1)
    tabular_kl := fun probs prior => probs }

/-- A concrete one-step, one-sample, one-pixel model state. -/
def testModel : AIRModel :=
  { max_steps := 1, batch_size := 1, output_std := 1, output_multiplier := 1,
    discrete_steps := true,
    obs := [[[1]]],
    raw_canvas := [[[[0]]]],
    presence := [[1]],
    presence_prob := [[1 / 2]],
    what_loc := [[[0]]], what_scale := [[[1]]],
    where_loc := [[[0, 0, 0, 0]]], where_scale := [[[1, 1, 1, 1]]],
    trainable_variables := [⟨"w", 2, 5⟩, ⟨"b1", 1, 3⟩, ⟨"bw", 2, 7⟩],
    baseline_vars := [⟨"bw", 2, 7⟩] }

/-- A concrete non-annealed step-count prior record. -/
def testNSP : NumStepsPriorIn :=
  { anneal := none, init := 1 / 2, final := 0, steps := 1, steps_div := 1,
    hold_init := 0, weight := 1, analytic := some true }

/-- The value run A (`use_prior` toggled off, `use_reinforce` left at its
default `True`, no baseline, no decay rate, no L2 penalty) evaluates to. -/
def runAOut : TrainStepOut :=
  { loss := { valAcc := some 1, psAcc := some [1] }, opt_loss := 3, rec_loss := 1,
    rec_loss_per_sample := [1],
    prior_loss := some { valAcc := some (1 / 2), psAcc := some [1 / 2] },
    prior_step_weight := some [], prior_weight := some 0,
    reinforce_imp_weight := some [1], importance_weight := some [1], log_prob := some [2],
    reinforce_loss_per_sample := some [2], reinforce_loss := some 2, l2_loss := none,
    baseline_loss := none,
    model_vars := [⟨"w", 2, 5⟩, ⟨"b1", 1, 3⟩, ⟨"bw", 2, 7⟩],
    train_op := [(1, [⟨"w", 2, 5⟩, ⟨"b1", 1, 3⟩, ⟨"bw", 2, 7⟩])] }

/-- The value run B (like run A but with a baseline module predicting `[0]`)
evaluates to. -/
def runBOut : TrainStepOut :=
  { loss := { valAcc := some 1, psAcc := some [1] }, opt_loss := 3, rec_loss := 1,
    rec_loss_per_sample := [1],
    prior_loss := some { valAcc := some (1 / 2), psAcc := some [1 / 2] },
    prior_step_weight := some [], prior_weight := some 0,
    reinforce_imp_weight := some [1], importance_weight := some [1], log_prob := some [2],
    reinforce_loss_per_sample := some [2], reinforce_loss := some 2, l2_loss := none,
    baseline_loss := some (1 / 2),
    model_vars := [⟨"w", 2, 5⟩, ⟨"b1", 1, 3⟩],
    train_op := [(1, [⟨"w", 2, 5⟩, ⟨"b1", 1, 3⟩]), (10, [⟨"bw", 2, 7⟩])] }

/-- The value run D (`use_prior` off, REINFORCE disabled, L2 weight 1)
evaluates to. -/
def runDOut : TrainStepOut :=
  { loss := { valAcc := some 1, psAcc := some [1] }, opt_loss := 13, rec_loss := 1,
    rec_loss_per_sample := [1],
    prior_loss := some { valAcc := some (1 / 2), psAcc := some [1 / 2] },
    prior_step_weight := some [], prior_weight := some 0,
    reinforce_imp_weight := none, importance_weight := none, log_prob := none,
    reinforce_loss_per_sample := none, reinforce_loss := none, l2_loss := some 12,
    baseline_loss := none,
    model_vars := [⟨"w", 2, 5⟩, ⟨"b1", 1, 3⟩, ⟨"bw", 2, 7⟩],
    train_op := [(1, [⟨"w", 2, 5⟩, ⟨"b1", 1, 3⟩, ⟨"bw", 2, 7⟩])] }

/-- A two-sample model state whose per-sample prior losses differ across the
batch (used to exhibit the `Loss.per_sample` defect). -/
def c1Model : AIRModel :=
  { max_steps := 1, batch_size := 2, output_std := 1, output_multiplier := 1,
    discrete_steps := true,
    obs := [[[0]], [[0]]],
    raw_canvas := [[[[0]], [[0]]]],
    presence := [[1, 1]],
    presence_prob := [[1 / 4, 3 / 4]],
    what_loc := [[[0], [0]]], what_scale := [[[1], [1]]],
    where_loc := [[[0, 0, 0, 0], [0, 0, 0, 0]]],
    where_scale := [[[1, 1, 1, 1], [1, 1, 1, 1]]],
    trainable_variables := [], baseline_vars := [] }

/-- A non-analytic step-count prior record. -/
def c1nsp : NumStepsPriorIn :=
  { anneal := none, init := 1 / 2, final := 0, steps := 1, steps_div := 1,
    hold_init := 0, weight := 1, analytic := some false }

/-- The value run C (two samples, non-analytic prior, REINFORCE on)
evaluates to. -/
def runCOut : TrainStepOut :=
  { loss := { valAcc := some (1 / 2), psAcc := some [1 / 4, 3 / 4] }, opt_loss := 3 / 2,
    rec_loss := 0, rec_loss_per_sample := [0, 0],
    prior_loss := some { valAcc := some (1 / 2), psAcc := some [1 / 4, 3 / 4] },
    prior_step_weight := some [[1, 1]], prior_weight := some 1,
    reinforce_imp_weight := some [1 / 2, 1 / 2], importance_weight := some [1 / 2, 1 / 2],
    log_prob := some [2, 2], reinforce_loss_per_sample := some [1, 1],
    reinforce_loss := some 1, l2_loss := none, baseline_loss := none,
    model_vars := [], train_op := [(1, [])] }

/-- Collaborator instantiation whose posterior count distribution has the
full `max_steps + 1` bins for the one-step test model. -/
def witOps : RealOps :=
  { testOps with num_steps_prob := fun p => p.map (fun r => r ++ [1 / 3]) }

/-- A normalized analytic step-count prior record. -/
def c3nsp : NumStepsPrior :=
  { anneal := none, init := 1 / 2, final := 0, steps := 1, steps_div := 1,
    hold_init := 0, weight := 1, analytic := true }

theorem lossSmoke : Loss.add lossInit (some 1) (some [2, 3]) 1
    = .ok { valAcc := some 1, psAcc := some [2, 3] } := by
  norm_num [Loss.add, updateScalar, updateVec, lossInit]

theorem runA_eval : train_step_fn testOps testModel 1 0 none none none (some testNSP)
    (some false) true none none 0 1 0 = .ok runAOut := by
  norm_num [runAOut, train_step_fn, priorStage, reinforceStage, normalizeNSP,
    rec_loss_per_sample_fn, Normal3.log_prob,
    AIRModel.output_distrib, AIRModel.final_canvas, AIRModel.canvas, scale3, zipPix, meanQ,
    Loss.add, Loss.addLoss, updateScalar, updateVec, lossInit, prior_loss_fn, anneal_weight,
    stepWeightAnalytic, revCumsum, transposeLL, sumVecs, addVecs, whatStage, whereStage,
    mulMat, addT3, reinforce_fn, AIRModel.posterior_step_probs, AIRModel.num_step_per_sample,
    stop_gradient, Loss.value, Loss.per_sample, Loss.get_value, make_baseline_train_step,
    testOps, testModel, testNSP, List.range_succ]

theorem runB_eval : train_step_fn testOps testModel 1 0 none none none (some testNSP)
    (some false) true (some [0]) none 0 1 0 = .ok runBOut := by
  norm_num [runBOut, train_step_fn, priorStage, reinforceStage, normalizeNSP,
    rec_loss_per_sample_fn, Normal3.log_prob,
    AIRModel.output_distrib, AIRModel.final_canvas, AIRModel.canvas, scale3, zipPix, meanQ,
    Loss.add, Loss.addLoss, updateScalar, updateVec, lossInit, prior_loss_fn, anneal_weight,
    stepWeightAnalytic, revCumsum, transposeLL, sumVecs, addVecs, whatStage, whereStage,
    mulMat, addT3, reinforce_fn, AIRModel.posterior_step_probs, AIRModel.num_step_per_sample,
    stop_gradient, Loss.value, Loss.per_sample, Loss.get_value, make_baseline_train_step,
    testOps, testModel, testNSP, List.range_succ]

theorem runD_eval : train_step_fn testOps testModel 1 1 none none none (some testNSP)
    (some false) false none none 0 1 0 = .ok runDOut := by
  norm_num [runDOut, train_step_fn, priorStage, reinforceStage, normalizeNSP,
    rec_loss_per_sample_fn, Normal3.log_prob,
    AIRModel.output_distrib, AIRModel.final_canvas, AIRModel.canvas, scale3, zipPix, meanQ,
    Loss.add, Loss.addLoss, updateScalar, updateVec, lossInit, prior_loss_fn, anneal_weight,
    stepWeightAnalytic, revCumsum, transposeLL, sumVecs, addVecs, whatStage, whereStage,
    mulMat, addT3, reinforce_fn, AIRModel.posterior_step_probs, AIRModel.num_step_per_sample,
    stop_gradient, Loss.value, Loss.per_sample, Loss.get_value, make_baseline_train_step,
    testOps, testModel, testNSP, List.range_succ]

theorem runC_eval : train_step_fn testOps c1Model 1 0 none none none (some c1nsp)
    (some true) true none none 0 1 0 = .ok runCOut := by
  norm_num [runCOut, train_step_fn, priorStage, reinforceStage, normalizeNSP,
    rec_loss_per_sample_fn, Normal3.log_prob,
    AIRModel.output_distrib, AIRModel.final_canvas, AIRModel.canvas, scale3, zipPix, meanQ,
    Loss.add, Loss.addLoss, updateScalar, updateVec, lossInit, prior_loss_fn, anneal_weight,
    stepWeightAnalytic, revCumsum, transposeLL, sumVecs, addVecs, whatStage, whereStage,
    mulMat, addT3, reinforce_fn, AIRModel.posterior_step_probs, AIRModel.num_step_per_sample,
    stop_gradient, Loss.value, Loss.per_sample, Loss.get_value, make_baseline_train_step,
    testOps, c1Model, c1nsp, List.range_succ]

lemma anneal_linear_eq (R : RealOps) (i f step total hold div : ℚ) :
    anneal_weight R i f "linear" step total hold div
      = .ok (max f (f + (i - f) * (1 - max (step - hold) 0 / total))) := by
  simp [anneal_weight]

/-- C6: for the `linear` anneal kind the schedule returns
`final + (initial - final) * (1 - effective_step / total_steps)` with effective
step `max(step - hold_for, 0)`, clamped below by `final`; at step `0` (before
any hold period has elapsed) it returns `initial`, at effective step
`total_steps` it returns `final`, for every step beyond it stays at `final`,
and the result is never below `final`. -/
theorem air_c6_linear_anneal (R : RealOps) (i f hold total div step : ℚ)
    (hfi : f ≤ i) (hhold : 0 ≤ hold) (htotal : 0 < total) :
    anneal_weight R i f "linear" step total hold div
      = .ok (max f (f + (i - f) * (1 - max (step - hold) 0 / total)))
    ∧ anneal_weight R i f "linear" 0 total hold div = .ok i
    ∧ anneal_weight R i f "linear" (hold + total) total hold div = .ok f
    ∧ (total ≤ step - hold → anneal_weight R i f "linear" step total hold div = .ok f)
    ∧ (∀ v : ℚ, anneal_weight R i f "linear" step total hold div = .ok v → f ≤ v) := by
  refine ⟨anneal_linear_eq R i f step total hold div, ?_, ?_, ?_, ?_⟩
  · rw [anneal_linear_eq]
    have h0 : max ((0 : ℚ) - hold) 0 = 0 := max_eq_right (by linarith)
    rw [h0]
    have hv : f + (i - f) * (1 - (0 : ℚ) / total) = i := by ring
    rw [hv, max_eq_right hfi]
  · rw [anneal_linear_eq]
    have h1 : max (hold + total - hold) 0 = total := by
      rw [add_sub_cancel_left]; exact max_eq_left htotal.le
    have hv : f + (i - f) * (1 - total / total) = f := by
      rw [div_self (ne_of_gt htotal)]; ring
    rw [h1, hv, max_self]
  · intro hb
    rw [anneal_linear_eq]
    have he : max (step - hold) 0 = step - hold := max_eq_left (le_trans htotal.le hb)
    have h2 : 1 ≤ (step - hold) / total := (one_le_div htotal).2 hb
    have h3 : (i - f) * (1 - (step - hold) / total) ≤ 0 :=
      mul_nonpos_of_nonneg_of_nonpos (by linarith) (by linarith)
    rw [he, max_eq_left (by linarith)]
  · intro v hv
    rw [anneal_linear_eq] at hv
    rw [← Except.ok.inj hv]
    exact le_max_left f _

theorem air_c6_witness :
    anneal_weight testOps 1 0 "linear" 0 100 0 1 = .ok 1
    ∧ anneal_weight testOps 1 0 "linear" (0 + 100) 100 0 1 = .ok 0
    ∧ anneal_weight testOps 1 0 "linear" 200 100 0 1 = .ok 0 :=
  ⟨(air_c6_linear_anneal testOps 1 0 0 100 1 200 (by norm_num) le_rfl (by norm_num)).2.1,
   (air_c6_linear_anneal testOps 1 0 0 100 1 200 (by norm_num) le_rfl (by norm_num)).2.2.1,
   (air_c6_linear_anneal testOps 1 0 0 100 1 200 (by norm_num) le_rfl (by norm_num)).2.2.2.1
     (by norm_num)⟩

/-- C7: the anneal-schedule computation fails (with the error the spec names
UnsupportedScheduleKind, raised as `NotImplementedError` in the source)
exactly when the anneal kind is outside the accepted set, and the exponential
(source literal `exp`) and `linear` kinds are accepted without failing. -/
theorem air_c7_anneal_kind (R : RealOps) (i f step asteps hold div : ℚ) (kind : String) :
    ((anneal_weight R i f kind step asteps hold div).isOk = true ↔
      (kind = "exp" ∨ kind = "linear"))
    ∧ (¬(kind = "exp" ∨ kind = "linear") →
        anneal_weight R i f kind step asteps hold div = .error .notImplemented) := by
  unfold anneal_weight
  by_cases h1 : kind = "exp"
  · simp [h1, Except.isOk, Except.toBool]
  · by_cases h2 : kind = "linear"
    · simp [h1, h2, Except.isOk, Except.toBool]
    · simp [h1, h2, Except.isOk, Except.toBool]

theorem air_c7_witness :
    anneal_weight testOps 1 0 "quadratic" 0 10 0 1 = .error .notImplemented
    ∧ (anneal_weight testOps 1 0 "exp" 0 10 0 1).isOk = true
    ∧ (anneal_weight testOps 1 0 "linear" 0 10 0 1).isOk = true :=
  ⟨(air_c7_anneal_kind testOps 1 0 0 10 0 1 "quadratic").2 (by simp),
   (air_c7_anneal_kind testOps 1 0 0 10 0 1 "exp").1.mpr (Or.inl rfl),
   (air_c7_anneal_kind testOps 1 0 0 10 0 1 "linear").1.mpr (Or.inr rfl)⟩

/-- C8: on a `Loss` accumulator that already holds a per-sample aggregate,
`add` fails with the shape-mismatch construction error exactly when the new
per-sample vector's shape (its length, i.e. the batch size) differs from the
accumulated one; with a matching shape it succeeds and the new aggregate is
the old one plus the `weight`-scaled component. -/
theorem air_c8_loss_add_shape (l : Loss) (xs : List ℚ) (hacc : l.psAcc = some xs)
    (v0 : ℚ) (ys : List ℚ) (w : ℚ) :
    (¬ xs.length = ys.length →
      Loss.add l (some v0) (some ys) w = .error .shapeMismatch)
    ∧ (xs.length = ys.length →
        (Loss.add l (some v0) (some ys) w).isOk = true
        ∧ (Loss.add l (some v0) (some ys) w).map Loss.psAcc
            = .ok (some (List.zipWith (fun a b => a + b * w) xs ys))) := by
  unfold Loss.add updateScalar updateVec
  rw [hacc]
  cases hval : l.valAcc with
  | none =>
    constructor
    · intro hne
      simp [List.length_map, hne]
    · intro heq
      simp [List.length_map, heq, Except.isOk, Except.toBool, List.zipWith_map_right, Except.map]
  | some v =>
    constructor
    · intro hne
      simp [List.length_map, hne]
    · intro heq
      simp [List.length_map, heq, Except.isOk, Except.toBool, List.zipWith_map_right, Except.map]

theorem air_c8_witness :
    Loss.add { valAcc := some 2, psAcc := some [1, 2] } (some 5) (some [4]) 1
      = .error .shapeMismatch
    ∧ (Loss.add { valAcc := some 2, psAcc := some [1, 2] } (some 5) (some [3, 4]) 2).map
        Loss.psAcc
      = .ok (some (List.zipWith (fun a b => a + b * 2) [1, 2] [3, 4])) :=
  ⟨(air_c8_loss_add_shape { valAcc := some 2, psAcc := some [1, 2] } [1, 2] rfl 5 [4] 1).1
     (by decide),
   ((air_c8_loss_add_shape { valAcc := some 2, psAcc := some [1, 2] } [1, 2] rfl 5 [3, 4] 2).2
     (by decide)).2⟩

lemma getD_range_map {α : Type} (f : ℕ → α) (n i : ℕ) (d : α) (h : i < n) :
    ((List.range n).map f).getD i d = f i := by
  have hl : i < ((List.range n).map f).length := by simp [h]
  rw [List.getD_eq_getElem _ _ hl, List.getElem_map]
  congr 1
  exact List.getElem_range i (by simpa using h)

lemma transposeLL_row (M : List (List ℚ)) (j : ℕ) (hj : j < (M.headD []).length) :
    (transposeLL M).getD j [] = M.map (fun row => row.getD j 0) := by
  unfold transposeLL
  exact getD_range_map _ _ j [] hj

lemma revCumsum_getD (X : List (List ℚ)) (t : ℕ) (ht : t < X.length) :
    (revCumsum X).getD t [] = sumVecs (X.drop t) := by
  unfold revCumsum
  exact getD_range_map _ _ t [] ht

lemma addVecs_getD : ∀ (a b : List ℚ) (i : ℕ), i < a.length → i < b.length →
    (addVecs a b).getD i 0 = a.getD i 0 + b.getD i 0
  | [], b, i, ha, hb => by simp at ha
  | a :: as, [], i, ha, hb => by simp at hb
  | a :: as, b :: bs, 0, ha, hb => by simp [addVecs]
  | a :: as, b :: bs, i + 1, ha, hb => by
    have ih := addVecs_getD as bs i (by simpa using ha) (by simpa using hb)
    simpa [addVecs, List.getD_cons_succ] using ih

lemma sumVecs_length_lt : ∀ (rows : List (List ℚ)) (b : ℕ), rows ≠ [] →
    (∀ r ∈ rows, b < r.length) → b < (sumVecs rows).length
  | [], b, hne, h => absurd rfl hne
  | [v], b, hne, h => by simpa [sumVecs] using h v (by simp)
  | v :: w :: rest, b, hne, h => by
    have ih := sumVecs_length_lt (w :: rest) b (by simp)
      (fun r hr => h r (List.mem_cons_of_mem _ hr))
    have hv := h v (by simp)
    have hs : sumVecs (v :: w :: rest) = addVecs v (sumVecs (w :: rest)) := rfl
    rw [hs]
    unfold addVecs
    rw [List.length_zipWith]
    exact lt_min hv ih

lemma sumVecs_getD : ∀ (rows : List (List ℚ)) (b : ℕ), (∀ r ∈ rows, b < r.length) →
    (sumVecs rows).getD b 0 = (rows.map (fun r => r.getD b 0)).sum
  | [], b, h => by simp [sumVecs]
  | [v], b, h => by simp [sumVecs]
  | v :: w :: rest, b, h => by
    have hv := h v (by simp)
    have hrest : ∀ r ∈ w :: rest, b < r.length := fun r hr => h r (List.mem_cons_of_mem _ hr)
    have ih := sumVecs_getD (w :: rest) b hrest
    have hlen := sumVecs_length_lt (w :: rest) b (by simp) hrest
    have hs : sumVecs (v :: w :: rest) = addVecs v (sumVecs (w :: rest)) := rfl
    rw [hs, addVecs_getD v _ b hv hlen, ih]
    simp

lemma getD_map_rows (M : List (List ℚ)) (g : List ℚ → ℚ) (b : ℕ) (hb : b < M.length) :
    (M.map g).getD b 0 = g (M.get ⟨b, hb⟩) := by
  rw [List.getD_eq_getElem _ _ (by simpa using hb), List.getElem_map]
  rfl

lemma getElem_of_getElemQu {α : Type} {l : List α} {i : ℕ} {a : α} (h : i < l.length)
    (h2 : l[i]? = some a) : l.get ⟨i, h⟩ = a := by
  have h3 := List.getElem?_eq_getElem h
  rw [h2] at h3
  exact (Option.some.inj h3).symm

/-- The key index computation behind the analytic prior step weight: entry
`(t, b)` of the reverse-cumsum construction is the tail sum of sample `b`'s
posterior count probabilities from bin `t + 1` upward. -/
lemma stepWeightAnalytic_getD (P : List (List ℚ)) (n : ℕ)
    (hrect : ∀ r ∈ P, r.length = n + 1) (t b : ℕ) (ht : t < n) (hb : b < P.length) :
    ((stepWeightAnalytic P).getD t []).getD b 0 = ((P.getD b []).drop (t + 1)).sum := by
  have hPne : P ≠ [] := by
    intro h; rw [h] at hb; simp at hb
  have hbM : b < (P.map (List.drop 1)).length := by simpa using hb
  have hhead : ((P.map (List.drop 1)).headD []).length = n := by
    cases hP : P with
    | nil => exact absurd hP hPne
    | cons p ps =>
      subst hP
      have hp : p.length = n + 1 := hrect p (by simp)
      simp [hp]
  have hXlen : (transposeLL (P.map (List.drop 1))).length = n := by
    unfold transposeLL
    rw [List.length_map, List.length_range, hhead]
  have hXrows : ∀ r ∈ transposeLL (P.map (List.drop 1)), r.length = P.length := by
    intro r hr
    unfold transposeLL at hr
    obtain ⟨j, hj, rfl⟩ := List.mem_map.1 hr
    simp
  have h1 : (stepWeightAnalytic P).getD t []
      = sumVecs ((transposeLL (P.map (List.drop 1))).drop t) := by
    unfold stepWeightAnalytic
    exact revCumsum_getD _ t (by rw [hXlen]; exact ht)
  rw [h1]
  have hdroprows : ∀ r ∈ (transposeLL (P.map (List.drop 1))).drop t, b < r.length := by
    intro r hr
    rw [hXrows r (List.mem_of_mem_drop hr)]
    exact hb
  rw [sumVecs_getD _ b hdroprows]
  congr 1
  have hPblen : (P.getD b []).length = n + 1 := by
    rw [List.getD_eq_getElem P [] hb]
    exact hrect (P.get ⟨b, hb⟩) (by exact List.getElem_mem hb)
  have hMb : (P.map (List.drop 1))[b]? = some ((P.getD b []).drop 1) := by
    rw [List.getElem?_map, List.getElem?_eq_getElem hb, List.getD_eq_getElem P [] hb]
    rfl
  apply List.ext_getElem
  · rw [List.length_map, List.length_drop, hXlen, List.length_drop, hPblen]
    omega
  · intro k h1k h2k
    have hk : k < n - t := by
      rw [List.length_map, List.length_drop, hXlen] at h1k
      exact h1k
    have htk : t + k < n := by omega
    have hdl : t + k < ((P.getD b []).drop 1).length := by
      rw [List.length_drop, hPblen]; omega
    have hL : (List.map (fun r => r.getD b 0) ((transposeLL (P.map (List.drop 1))).drop t))[k]?
        = some (((P.getD b []).drop 1).getD (t + k) 0) := by
      rw [List.getElem?_map, List.getElem?_drop]
      have hrow : (transposeLL (P.map (List.drop 1)))[t + k]?
          = some ((P.map (List.drop 1)).map (fun row => row.getD (t + k) 0)) := by
        unfold transposeLL
        rw [List.getElem?_map, hhead, List.getElem?_range htk]
        rfl
      rw [hrow, Option.map_some']
      congr 1
      rw [getD_map_rows _ _ b hbM]
      congr 1
      exact getElem_of_getElemQu hbM hMb
    have hR : ((P.getD b []).drop (t + 1))[k]?
        = some (((P.getD b []).drop 1).getD (t + k) 0) := by
      rw [List.getElem?_drop, List.getD_eq_getElem _ _ hdl]
      have hidx : t + 1 + k = 1 + (t + k) := by omega
      rw [hidx, ← List.getElem?_drop]
      exact List.getElem?_eq_getElem hdl
    have hLv := getElem_of_getElemQu h1k hL
    have hRv := getElem_of_getElemQu h2k hR
    exact hLv.trans hRv.symm

/-- C3: the prior step weight returned by `_prior_loss` is, when the
step-count prior is configured analytic, the reverse cumulative sum of the
posterior step-count probabilities from bin `t + 1` upward — entry `(t, b)`
is the tail sum of sample `b`'s posterior count distribution beyond bin `t`,
i.e. the posterior probability that at least `t + 1` objects exist — and,
when not analytic, the realized presence bits from the trajectory. -/
theorem air_c3_prior_step_weight (R : RealOps) (m : AIRModel)
    (wp wsp : Option NormalPrior) (wshp : Option ShiftPrior) (nsp : NumStepsPrior)
    (gs : ℚ) (pl : Loss) (sw : List (List ℚ))
    (hok : prior_loss_fn R m wp wsp wshp (some nsp) gs = .ok (pl, sw)) :
    (nsp.analytic = false → sw = m.presence)
    ∧ (nsp.analytic = true →
        sw = stepWeightAnalytic (R.num_steps_prob m.posterior_step_probs)
        ∧ ∀ t b : ℕ,
            (∀ r ∈ R.num_steps_prob m.posterior_step_probs, r.length = m.max_steps + 1) →
            t < m.max_steps → b < (R.num_steps_prob m.posterior_step_probs).length →
            (sw.getD t []).getD b 0
              = (((R.num_steps_prob m.posterior_step_probs).getD b []).drop (t + 1)).sum) := by
  have hsw : sw =
      if nsp.analytic then stepWeightAnalytic (R.num_steps_prob m.posterior_step_probs)
      else m.presence := by
    simp only [prior_loss_fn] at hok
    split at hok
    · exact absurd hok (by simp)
    · split at hok
      · exact absurd hok (by simp)
      · split at hok
        · exact absurd hok (by simp)
        · split at hok
          · exact absurd hok (by simp)
          · have h2 := Except.ok.inj hok
            exact (congrArg Prod.snd h2).symm
  constructor
  · intro hfalse
    rw [hsw, hfalse]
    simp
  · intro htrue
    rw [hsw, htrue]
    have hI : (if true = true then stepWeightAnalytic (R.num_steps_prob m.posterior_step_probs)
        else m.presence) = stepWeightAnalytic (R.num_steps_prob m.posterior_step_probs) :=
      if_pos rfl
    rw [hI]
    refine ⟨rfl, ?_⟩
    intro t b hrect ht hbb
    exact stepWeightAnalytic_getD _ m.max_steps hrect t b ht hbb

theorem air_c3_witness :
    prior_loss_fn witOps testModel none none none (some c3nsp) 0
      = .ok ({ valAcc := some (5 / 6), psAcc := some [5 / 6] }, [[1 / 3]])
    ∧ ([[(1 / 3 : ℚ)]] : List (List ℚ))
        = stepWeightAnalytic (witOps.num_steps_prob testModel.posterior_step_probs) := by
  have hok : prior_loss_fn witOps testModel none none none (some c3nsp) 0
      = .ok ({ valAcc := some (5 / 6), psAcc := some [5 / 6] }, [[1 / 3]]) := by
    norm_num [prior_loss_fn, anneal_weight, Loss.add, updateScalar, updateVec, lossInit,
      meanQ, stepWeightAnalytic, revCumsum, transposeLL, sumVecs, addVecs, whatStage,
      whereStage, AIRModel.posterior_step_probs, witOps, testOps, testModel, c3nsp,
      List.range_succ]
  exact ⟨hok,
    ((air_c3_prior_step_weight witOps testModel none none none c3nsp 0 _ _ hok).2 rfl).1⟩

lemma getLastD_map {α β : Type} (f : α → β) : ∀ (l : List α) (d : α),
    (l.map f).getLastD (f d) = f (l.getLastD d)
  | [], d => rfl
  | a :: l, d => by
    rw [List.map_cons, List.getLastD_cons, List.getLastD_cons]
    exact getLastD_map f l a

lemma sum_map_negQ (l : List ℚ) : (l.map (fun x => -x)).sum = -l.sum := by
  induction l with
  | nil => simp
  | cons a l ih => simp [ih, neg_add]; ring

/-- C10: calling `train_step` with `num_steps_prior` left as `None` always
fails at graph-construction time (line 295 sets the record's `analytic` field
unconditionally), while a run with a step-count prior record and every other
prior argument, the baseline and the decay rate all `None` constructs
successfully. -/
theorem air_c10_num_steps_prior_required :
    (∀ (R : RealOps) (m : AIRModel) (lr l2w : ℚ) (wp wsp : Option NormalPrior)
       (wshp : Option ShiftPrior) (up : Option Bool) (ur : Bool) (bl : Option (List ℚ))
       (dr : Option ℚ) (mm mv gs : ℚ),
       train_step_fn R m lr l2w wp wsp wshp none up ur bl dr mm mv gs = .error .typeError)
    ∧ (train_step_fn testOps testModel 1 0 none none none (some testNSP) (some true) false
        none none 0 1 0).isOk = true := by
  constructor
  · intro R m lr l2w wp wsp wshp up ur bl dr mm mv gs
    rfl
  · norm_num [train_step_fn, priorStage, reinforceStage, normalizeNSP, rec_loss_per_sample_fn,
      Normal3.log_prob,
      AIRModel.output_distrib, AIRModel.final_canvas, AIRModel.canvas, scale3, zipPix, meanQ,
      Loss.add, Loss.addLoss, updateScalar, updateVec, lossInit, prior_loss_fn, anneal_weight,
      stepWeightAnalytic, revCumsum, transposeLL, sumVecs, addVecs, whatStage, whereStage,
      AIRModel.posterior_step_probs, Loss.value, Loss.get_value,
      testOps, testModel, testNSP, List.range_succ, Except.isOk, Except.toBool]

/-- C5: the output distribution is a per-pixel Normal whose mean is the final
canvas scaled by the output multiplier and whose standard deviation is the
fixed `output_std`; the per-sample reconstruction loss is the negated sum
over the pixel grid of the observation's log-probability under that
distribution; and the reported reconstruction loss is its batch mean. -/
theorem air_c5_output_distrib_rec_loss (R : RealOps) (m : AIRModel)
    (lr l2w : ℚ) (wp wsp : Option NormalPrior) (wshp : Option ShiftPrior)
    (nspIn : NumStepsPriorIn) (up : Option Bool) (ur : Bool) (bl : Option (List ℚ))
    (dr : Option ℚ) (mm mv gs : ℚ) (out : TrainStepOut)
    (hok : train_step_fn R m lr l2w wp wsp wshp (some nspIn) up ur bl dr mm mv gs = .ok out) :
    m.output_distrib =
      { loc := scale3 m.output_multiplier (m.raw_canvas.getLastD []), scale := m.output_std }
    ∧ out.rec_loss_per_sample
        = (Normal3.log_prob R m.output_distrib m.obs).map (fun img => -((img.map List.sum).sum))
    ∧ out.rec_loss
        = out.rec_loss_per_sample.sum / (out.rec_loss_per_sample.length : ℚ) := by
  have hfields : out.rec_loss_per_sample = rec_loss_per_sample_fn R m
      ∧ out.rec_loss = meanQ (rec_loss_per_sample_fn R m) := by
    simp only [train_step_fn] at hok
    split at hok
    · exact absurd hok (by simp)
    · split at hok
      · exact absurd hok (by simp)
      · split at hok
        · exact absurd hok (by simp)
        · rw [← Except.ok.inj hok]
          exact ⟨rfl, rfl⟩
  have hdist : m.output_distrib =
      { loc := scale3 m.output_multiplier (m.raw_canvas.getLastD []), scale := m.output_std } := by
    unfold AIRModel.output_distrib AIRModel.final_canvas AIRModel.canvas
    have hmap : (m.raw_canvas.map (fun s => scale3 m.output_multiplier s)).getLastD []
        = scale3 m.output_multiplier (m.raw_canvas.getLastD []) := by
      have h0 : scale3 m.output_multiplier ([] : List (List (List ℚ))) = [] := rfl
      calc (m.raw_canvas.map (fun s => scale3 m.output_multiplier s)).getLastD []
      _ = (m.raw_canvas.map (fun s => scale3 m.output_multiplier s)).getLastD
            (scale3 m.output_multiplier []) := by rw [h0]
      _ = scale3 m.output_multiplier (m.raw_canvas.getLastD []) :=
            getLastD_map (scale3 m.output_multiplier) m.raw_canvas []
    rw [hmap]
  refine ⟨hdist, ?_, ?_⟩
  · rw [hfields.1]
    unfold rec_loss_per_sample_fn
    rw [List.map_map]
    apply List.map_congr_left
    intro img hmem
    simp only [Function.comp]
    rw [List.map_map]
    have hrow : ∀ row ∈ img, ((fun r : List ℚ => List.sum r) ∘ fun row : List ℚ =>
        row.map (fun x => -x)) row = -row.sum := by
      intro row hr
      simp only [Function.comp]
      exact sum_map_negQ row
    rw [List.map_congr_left hrow]
    have : (img.map (fun row : List ℚ => -row.sum)) = (img.map List.sum).map (fun x => -x) := by
      rw [List.map_map]
      rfl
    rw [this, sum_map_negQ]
  · rw [hfields.2, hfields.1]
    rfl

theorem air_c5_witness :
    testModel.output_distrib =
      { loc := scale3 testModel.output_multiplier (testModel.raw_canvas.getLastD []),
        scale := testModel.output_std }
    ∧ runAOut.rec_loss_per_sample
        = (Normal3.log_prob testOps testModel.output_distrib testModel.obs).map
            (fun img => -((img.map List.sum).sum))
    ∧ runAOut.rec_loss
        = runAOut.rec_loss_per_sample.sum / (runAOut.rec_loss_per_sample.length : ℚ) :=
  air_c5_output_distrib_rec_loss testOps testModel 1 0 none none none testNSP (some false)
    true none none 0 1 0 runAOut runA_eval

lemma priorStage_some_inv (R : RealOps) (m : AIRModel) (wp wsp : Option NormalPrior)
    (wshp : Option ShiftPrior) (nsp : NumStepsPrior) (gs : ℚ) (f : Bool) (loss1 loss2 : Loss)
    (info : Option (Loss × List (List ℚ) × ℚ))
    (h : priorStage R m wp wsp wshp nsp gs (some f) loss1 = .ok (loss2, info)) :
    ∃ pl sw, prior_loss_fn R m wp wsp wshp (some nsp) gs = .ok (pl, sw)
      ∧ Loss.addLoss loss1 pl (if f then 1 else 0) = .ok loss2
      ∧ info = some (pl, sw, if f then 1 else 0) := by
  simp only [priorStage] at h
  split at h
  · exact absurd h (by simp)
  · rename_i pl sw heq1
    split at h
    · exact absurd h (by simp)
    · rename_i loss2b heq2
      injection h with hpair
      injection hpair with hA hB
      refine ⟨pl, sw, heq1, ?_, hB.symm⟩
      rw [← hA]
      exact heq2

lemma reinforceStage_true_inv (R : RealOps) (m : AIRModel) (nsp : NumStepsPrior)
    (info : Option (Loss × List (List ℚ) × ℚ)) (bl : Option (List ℚ)) (dr : Option ℚ)
    (mm mv : ℚ) (rec_lps : List ℚ) (opt0 : ℚ) (iw0opt : Option (List ℚ))
    (roOpt : Option ReinforceOut) (opt1 : ℚ)
    (h : reinforceStage R m nsp info true bl dr mm mv rec_lps opt0
      = .ok (iw0opt, roOpt, opt1)) :
    ∃ iw0, iw0opt = some iw0
      ∧ roOpt = some (reinforce_fn R m iw0 bl dr mm mv)
      ∧ opt1 = opt0 + (reinforce_fn R m iw0 bl dr mm mv).reinforce_loss
      ∧ (nsp.analytic = true → iw0 = rec_lps)
      ∧ (nsp.analytic = false →
          ∃ pl sw w, info = some (pl, sw, w)
            ∧ iw0 = rec_lps.map (fun x => x + Loss.per_sample pl)) := by
  unfold reinforceStage at h
  rw [if_pos rfl] at h
  split at h
  · exact absurd h (by simp)
  · rename_i iw0 heq
    injection h with hpair
    injection hpair with h3 hrest
    injection hrest with h5 h6
    refine ⟨iw0, h3.symm, h5.symm, h6.symm, ?_, ?_⟩
    · intro han
      rw [if_pos han] at heq
      exact (Except.ok.inj heq).symm
    · intro han
      rw [han] at heq
      simp only [Bool.false_eq_true, if_false] at heq
      split at heq
      · rename_i pl ssw ww
        exact ⟨pl, ssw, ww, rfl, (Except.ok.inj heq).symm⟩
      · exact absurd heq (by simp)

lemma reinforceStage_false_eq (R : RealOps) (m : AIRModel) (nsp : NumStepsPrior)
    (info : Option (Loss × List (List ℚ) × ℚ)) (bl : Option (List ℚ)) (dr : Option ℚ)
    (mm mv : ℚ) (rec_lps : List ℚ) (opt0 : ℚ) :
    reinforceStage R m nsp info false bl dr mm mv rec_lps opt0 = .ok (none, none, opt0) := rfl

lemma addLoss_ok_val (l pl : Loss) (w : ℚ) (r : Loss) (v : ℚ)
    (hv : l.valAcc = some v) (h : Loss.addLoss l pl w = .ok r) :
    ∃ pv, pl.valAcc = some pv ∧ r.valAcc = some (v + pv * w) := by
  unfold Loss.addLoss Loss.add updateScalar at h
  rw [hv] at h
  cases hpv : pl.valAcc with
  | none =>
    rw [hpv] at h
    dsimp only at h
    exact absurd h (by simp)
  | some pv =>
    rw [hpv] at h
    dsimp only at h
    refine ⟨pv, rfl, ?_⟩
    split at h
    · exact absurd h (by simp)
    · rw [← Except.ok.inj h]

/-- C2: with REINFORCE requested, every sample's REINFORCE loss is the
gradient-detached importance weight times the log-probability of that
sample's realized step count (the summed presence bits) under the step-count
posterior; its batch mean is added to the optimized objective, which exceeds
the reported loss accumulator's value by exactly the REINFORCE term (plus the
separate L2 term), so the reported loss value does not include it. -/
theorem air_c2_reinforce_loss (R : RealOps) (m : AIRModel) (lr l2w : ℚ)
    (wp wsp : Option NormalPrior) (wshp : Option ShiftPrior) (nspIn : NumStepsPriorIn)
    (up : Option Bool) (bl : Option (List ℚ)) (dr : Option ℚ) (mm mv gs : ℚ)
    (out : TrainStepOut)
    (hok : train_step_fn R m lr l2w wp wsp wshp (some nspIn) up true bl dr mm mv gs = .ok out) :
    out.log_prob = some (R.num_steps_log_prob m.posterior_step_probs m.num_step_per_sample)
    ∧ out.reinforce_loss_per_sample
        = some (List.zipWith (fun w l => stop_gradient w * l)
            (out.importance_weight.getD []) (out.log_prob.getD []))
    ∧ out.reinforce_loss = some (meanQ (out.reinforce_loss_per_sample.getD []))
    ∧ out.opt_loss = Loss.value out.loss + out.reinforce_loss.getD 0 + out.l2_loss.getD 0 := by
  simp only [train_step_fn] at hok
  split at hok
  · exact absurd hok (by simp)
  · split at hok
    · exact absurd hok (by simp)
    · split at hok
      · exact absurd hok (by simp)
      · rename_i heqRe
        obtain ⟨iw0, hiw, hro, hopt, _, _⟩ :=
          reinforceStage_true_inv _ _ _ _ _ _ _ _ _ _ _ _ _ heqRe
        subst hiw hro hopt
        rw [← Except.ok.inj hok]
        refine ⟨?_, ?_, ?_, ?_⟩ <;>
          simp [reinforce_fn, Option.map_some', Option.getD_some]

theorem air_c2_witness :
    runAOut.log_prob = some (testOps.num_steps_log_prob testModel.posterior_step_probs
        testModel.num_step_per_sample)
    ∧ runAOut.reinforce_loss_per_sample
        = some (List.zipWith (fun w l => stop_gradient w * l)
            (runAOut.importance_weight.getD []) (runAOut.log_prob.getD []))
    ∧ runAOut.reinforce_loss = some (meanQ (runAOut.reinforce_loss_per_sample.getD []))
    ∧ runAOut.opt_loss = Loss.value runAOut.loss + runAOut.reinforce_loss.getD 0
        + runAOut.l2_loss.getD 0 :=
  air_c2_reinforce_loss testOps testModel 1 0 none none none testNSP (some false) none none
    0 1 0 runAOut runA_eval

/-- C4 counterexample: with `use_prior` toggled off but `use_reinforce` left
at its default, the optimized objective contains the REINFORCE correction and
is not the reconstruction loss plus the L2 term; and with an L2 penalty the
reported loss accumulator's value is the reconstruction loss alone, also not
reconstruction plus L2.  Both readings of the claimed identity fail on
concrete runs. -/
theorem air_c4_counterexample :
    train_step_fn testOps testModel 1 0 none none none (some testNSP) (some false) true
        none none 0 1 0 = .ok runAOut
    ∧ ¬ runAOut.opt_loss = runAOut.rec_loss + runAOut.l2_loss.getD 0
    ∧ train_step_fn testOps testModel 1 1 none none none (some testNSP) (some false) false
        none none 0 1 0 = .ok runDOut
    ∧ ¬ Loss.value runDOut.loss = runDOut.rec_loss + runDOut.l2_loss.getD 0 := by
  refine ⟨runA_eval, ?_, runD_eval, ?_⟩
  · show ¬ (3 : ℚ) = 1 + (none : Option ℚ).getD 0
    norm_num
  · show ¬ Loss.value { valAcc := some 1, psAcc := some [1] }
      = 1 + (Option.getD (some 12) 0 : ℚ)
    norm_num [Loss.value, Loss.get_value]

/-- C4 amended: with `use_prior` toggled off and REINFORCE disabled, the
optimized objective equals the reconstruction loss plus the L2 term only,
with no KL contribution, independent of the prior configuration values; the
runtime flag enters only as the weight (1 when on, 0 when off) on the
accumulated KL term, and the reported loss value equals the reconstruction
loss. -/
theorem air_c4_use_prior_off (R : RealOps) (m : AIRModel) (lr l2w : ℚ)
    (wp wsp : Option NormalPrior) (wshp : Option ShiftPrior) (nspIn : NumStepsPriorIn)
    (bl : Option (List ℚ)) (dr : Option ℚ) (mm mv gs : ℚ) (out : TrainStepOut)
    (hok : train_step_fn R m lr l2w wp wsp wshp (some nspIn) (some false) false bl dr mm mv gs
      = .ok out) :
    out.prior_weight = some 0
    ∧ Loss.value out.loss = out.rec_loss
    ∧ out.opt_loss = out.rec_loss + out.l2_loss.getD 0
    ∧ (0 < l2w → out.l2_loss
        = some (l2w * ((out.model_vars.filter (fun v => v.ndim == 2)).map TFVar.l2).sum))
    ∧ (¬ 0 < l2w → out.l2_loss = none) := by
  simp only [train_step_fn] at hok
  split at hok
  · exact absurd hok (by simp)
  · rename_i loss1 heqAdd
    split at hok
    · exact absurd hok (by simp)
    · rename_i loss2 priorInfo heqPrior
      simp only [reinforceStage_false_eq] at hok
      obtain ⟨pl, sw, heqPL, heqAddL, hinfo⟩ :=
        priorStage_some_inv _ _ _ _ _ _ _ _ _ _ _ heqPrior
      have hl1 : loss1.valAcc = some (meanQ (rec_loss_per_sample_fn R m) * 1) := by
        have he : Loss.add lossInit (some (meanQ (rec_loss_per_sample_fn R m)))
            (some (rec_loss_per_sample_fn R m)) 1
            = .ok { valAcc := some (meanQ (rec_loss_per_sample_fn R m) * 1),
                    psAcc := some ((rec_loss_per_sample_fn R m).map (fun x => x * 1)) } := rfl
        rw [he] at heqAdd
        rw [← Except.ok.inj heqAdd]
      obtain ⟨pv, hpv, hval2⟩ := addLoss_ok_val loss1 pl _ loss2 _ hl1 heqAddL
      have hvl2 : Loss.value loss2 = meanQ (rec_loss_per_sample_fn R m) := by
        unfold Loss.value Loss.get_value
        rw [hval2]
        simp
      subst hinfo
      rw [← Except.ok.inj hok]
      refine ⟨by simp, ?_, ?_, ?_, ?_⟩
      · show Loss.value loss2 = meanQ (rec_loss_per_sample_fn R m)
        exact hvl2
      · show Loss.value loss2 + _ = meanQ (rec_loss_per_sample_fn R m) + _
        rw [hvl2]
      · intro hpos
        show (if 0 < l2w then _ else none) = _
        rw [if_pos hpos]
      · intro hneg
        show (if 0 < l2w then _ else none) = none
        rw [if_neg hneg]

theorem air_c4_witness :
    runDOut.prior_weight = some 0
    ∧ Loss.value runDOut.loss = runDOut.rec_loss
    ∧ runDOut.opt_loss = runDOut.rec_loss + runDOut.l2_loss.getD 0
    ∧ runDOut.l2_loss
        = some (1 * ((runDOut.model_vars.filter (fun v => v.ndim == 2)).map TFVar.l2).sum) := by
  have h := air_c4_use_prior_off testOps testModel 1 1 none none none testNSP none none
    0 1 0 runDOut runD_eval
  exact ⟨h.1, h.2.1, h.2.2.1, h.2.2.2.1 (by norm_num)⟩

/-- C9: with REINFORCE active and a baseline module supplied, the baseline
loss is half the mean squared error between the gradient-detached importance
weight taken before baseline subtraction and the baseline prediction; the
returned training step groups the main update (at the main learning rate,
over the trainable variables minus the baseline variables) with the baseline
update at ten times the main learning rate over exactly the baseline
module's variables; the main update's variable set excludes every baseline
variable, and applying the baseline update op leaves every variable outside
the baseline module's own set unchanged. -/
theorem air_c9_baseline (R : RealOps) (m : AIRModel) (lr l2w : ℚ)
    (wp wsp : Option NormalPrior) (wshp : Option ShiftPrior) (nspIn : NumStepsPriorIn)
    (up : Option Bool) (bl : List ℚ) (dr : Option ℚ) (mm mv gs : ℚ) (out : TrainStepOut)
    (hd : m.discrete_steps = true)
    (hok : train_step_fn R m lr l2w wp wsp wshp (some nspIn) up true (some bl) dr mm mv gs
      = .ok out) :
    out.baseline_loss = some ((1 / 2) * meanQ (List.zipWith (fun t b => (t - b) ^ 2)
        ((out.reinforce_imp_weight.getD []).map stop_gradient) bl))
    ∧ out.train_op = [(lr, out.model_vars), (10 * lr, m.baseline_vars)]
    ∧ (∀ v ∈ out.model_vars, v ∉ m.baseline_vars)
    ∧ (∀ (upd : TFVar → ℚ → ℚ) (s : TFVar → ℚ) (v : TFVar), v ∉ m.baseline_vars →
        applyOp upd (10 * lr, m.baseline_vars) s v = s v) := by
  have happly : ∀ (upd : TFVar → ℚ → ℚ) (s : TFVar → ℚ) (v : TFVar), v ∉ m.baseline_vars →
      applyOp upd (10 * lr, m.baseline_vars) s v = s v := by
    intro upd s v hv
    unfold applyOp
    exact if_neg hv
  simp only [train_step_fn] at hok
  split at hok
  · exact absurd hok (by simp)
  · split at hok
    · exact absurd hok (by simp)
    · split at hok
      · exact absurd hok (by simp)
      · rename_i heqRe
        obtain ⟨iw0, hiw, hro, hopt, _, _⟩ :=
          reinforceStage_true_inv _ _ _ _ _ _ _ _ _ _ _ _ _ heqRe
        subst hiw hro hopt
        rw [← Except.ok.inj hok]
        refine ⟨?_, ?_, ?_, happly⟩
        · simp [hd, make_baseline_train_step, Option.map_some', Option.getD_some]
        · simp [hd, make_baseline_train_step]
        · intro v hv
          simp only [Option.isSome_some, Bool.and_true, if_pos] at hv
          rw [List.mem_filter] at hv
          have h2 := hv.2
          simp only [Bool.not_eq_true, List.contains_eq_any_beq] at h2
          intro hmem
          simp [List.any_eq_true] at h2
          exact h2 v hmem rfl

theorem air_c9_witness :
    runBOut.baseline_loss = some ((1 / 2) * meanQ (List.zipWith (fun t b => (t - b) ^ 2)
        ((runBOut.reinforce_imp_weight.getD []).map stop_gradient) [0]))
    ∧ runBOut.train_op = [(1, runBOut.model_vars), (10 * 1, testModel.baseline_vars)] := by
  have h := air_c9_baseline testOps testModel 1 0 none none none testNSP (some false) [0]
    none 0 1 0 runBOut rfl runB_eval
  exact ⟨h.1, h.2.1⟩

/-- C1 (code defect evidence): on a two-sample batch with a non-analytic
step-count prior, the per-sample prior losses are `[1/4, 3/4]` (batch mean
`1/2`) and the per-sample reconstruction losses are `[0, 0]`, yet the code
forms the importance weight `[1/2, 1/2]`: the `Loss.per_sample` property goes
through `_get_value`, which ignores its name argument and returns the scalar
`_value` aggregate, so the batch-mean prior loss is broadcast-added instead
of the per-sample prior loss `[1/4, 3/4]`. -/
theorem air_c1_per_sample_prior_is_scalar :
    train_step_fn testOps c1Model 1 0 none none none (some c1nsp) (some true) true
        none none 0 1 0 = .ok runCOut
    ∧ runCOut.prior_loss = some { valAcc := some (1 / 2), psAcc := some [1 / 4, 3 / 4] }
    ∧ Loss.per_sample { valAcc := some (1 / 2), psAcc := some [1 / 4, 3 / 4] } = 1 / 2
    ∧ runCOut.reinforce_imp_weight = some [1 / 2, 1 / 2]
    ∧ ¬ runCOut.reinforce_imp_weight
        = some (List.zipWith (fun r p => r + p) runCOut.rec_loss_per_sample
            [1 / 4, 3 / 4]) := by
  refine ⟨runC_eval, rfl, rfl, rfl, ?_⟩
  norm_num [runCOut]
